import Mathlib

/-!
Verification development for the calendai backend command-orchestration core.

The definitions below are a shallow embedding of the JavaScript source:

* `src/src/services/outlookTasksService.js` (the aggregating calendar
  service section): `normalizeEventToUTC`, the aggregating `getEvents`.
* `src/src/routes/voiceRoutes.js`: `checkMeetingConflict`, `executeTool`,
  and the tool-dispatch phases of the `/command`, `/stream` and `/execute`
  handlers.

Conventions of the embedding:

* JavaScript timestamps (`Date` instants) are modelled as `Int`
  (milliseconds since the epoch); a date-only value (`YYYY-MM-DD`) is
  modelled by the instant of its UTC midnight, which is exactly the value
  `new Date('YYYY-MM-DD')` produces.
* A `dateTime` string is modelled by the inductive `DTStr`, which records
  the distinctions the source code makes: whether the string ends in `Z`
  or in an explicit offset (the test
  `dateTimeStr.endsWith('Z') || /[+-]\d\x7b2\x7d:?\d\x7b2\x7d$/.test(dateTimeStr)`),
  whether `new Date(...)` parses it (`NaN` check), and whether it is the
  canonical output of `Date.prototype.toISOString`.
* `null` / `undefined` / absent JSON fields are modelled with `Option`;
  where the source distinguishes `undefined` from `null` (the
  `action.description !== undefined` test in `/execute`) a dedicated
  three-valued type `JStrVal` is used.
* External collaborators (provider adapters, the LLM, detail fetches) are
  oracles carried in an `Env` record; each handler returns, next to its
  response, the trace of calendar-service calls it performed, so that
  "no mutation is dispatched" is a statement about the trace.
-/

namespace Calendai

/-- A `dateTime` string as the source distinguishes them.
`isoUTC m` is the canonical output of `toISOString` for instant `m`
(ends with `Z`); `zSuffix m` is any other string ending in `Z` that
parses to `m`; `withOffset m` has a trailing explicit offset and parses
to `m`; `offsetBad` ends in `Z`/an offset but `new Date` yields `NaN`;
`plain m` has neither suffix, with parse result `m` (`none` = `NaN`). -/
inductive DTStr where
  | isoUTC (m : Int)
  | zSuffix (m : Int)
  | withOffset (m : Int)
  | offsetBad
  | plain (m : Option Int)
deriving DecidableEq, Repr

/-- The suffix test `dateTimeStr.endsWith('Z') || /[+-]\d\x7b2\x7d:?\d\x7b2\x7d$/.test(dateTimeStr)`. -/
def DTStr.hasTZSuffix : DTStr → Bool
  | .isoUTC _ => true
  | .zSuffix _ => true
  | .withOffset _ => true
  | .offsetBad => true
  | .plain _ => false

/-- The parse `new Date(dateTimeStr).getTime()`, `none` when the result is `NaN`. -/
def DTStr.parse : DTStr → Option Int
  | .isoUTC m => some m
  | .zSuffix m => some m
  | .withOffset m => some m
  | .offsetBad => none
  | .plain m => m

/-- The rendering `new Date(m).toISOString()`: the canonical UTC rendering of instant `m`. -/
def toISOString (m : Int) : DTStr := .isoUTC m

/-- An event's `start` / `end` object: `dateTime`, `date` (date-only,
modelled by its UTC-midnight instant) and `timeZone` fields.  `none`
stands for an absent/null field (all of them are used only in truthiness
tests in the source). -/
structure TimePoint where
  dateTime : Option DTStr := none
  date : Option Int := none
  timeZone : Option String := none
deriving DecidableEq, Repr

structure Attendee where
  email : Option String := none
  displayName : Option String := none
deriving DecidableEq, Repr

/-- The canonical event/task shape flowing through the aggregating
calendar service (`summary`, `description`, `start`, `end`, `attendees`,
`source`, `isTask`; transformed tasks reuse the same shape).  `stop`
embeds the source's `end` field (a Lean keyword).  `due` is carried for
the task-detail lookup `task.due` in the stream handler (absent on
aggregated tasks, hence defaulted to `none`). -/
structure CalEvent where
  id : String := ""
  summary : String := ""
  description : String := ""
  start : Option TimePoint := none
  stop : Option TimePoint := none
  attendees : List Attendee := []
  source : Option String := none
  isTask : Bool := false
  due : Option Int := none
deriving DecidableEq, Repr

/-- One arm of `normalizeEventToUTC`: the treatment of `normalized.start`
(and identically `normalized.end`).  If `dateTime` is present and carries
a `Z`/offset suffix and parses, it is replaced by its `toISOString`
rendering and tagged `timeZone: 'UTC'`; otherwise, if only `date` is
present, the object is tagged `timeZone: 'UTC'`; otherwise unchanged. -/
def normalizeTimePoint (tp : TimePoint) : TimePoint :=
  match tp.dateTime with
  | some dt =>
    if dt.hasTZSuffix then
      match dt.parse with
      | some m => { tp with dateTime := some (toISOString m), timeZone := some "UTC" }
      | none => tp
    else tp
  | none =>
    match tp.date with
    | some _ => { tp with timeZone := some "UTC" }
    | none => tp

/-- Embedding of `normalizeEventToUTC` from the aggregating calendar service: shallow
copy of the event with `start` and `end` normalized (absent `start`/`end`
are left alone, as `normalized.start?.dateTime` short-circuits). -/
def normalizeEventToUTC (event : CalEvent) : CalEvent :=
  { event with
      start := event.start.map normalizeTimePoint
      stop := event.stop.map normalizeTimePoint }

/-! ## Conflict detector (`checkMeetingConflict`, voiceRoutes.js 59-123) -/

/-- The instant `new Date(meeting.start?.dateTime || meeting.start?.date)` — the
instant used for overlap testing; `none` models a `NaN` date (absent
object, both fields absent, or an unparseable `dateTime`). -/
def tpInstant : Option TimePoint → Option Int
  | none => none
  | some tp =>
    match tp.dateTime with
    | some dt => dt.parse
    | none =>
      match tp.date with
      | some d => some d
      | none => none

/-- The overlap test of `checkMeetingConflict`:
`start < meetingEnd && end > meetingStart`.  Any comparison against a
`NaN` instant is false in JavaScript, hence the `Option` matching. -/
def overlapsWindow (s e : Int) (meeting : CalEvent) : Bool :=
  match tpInstant meeting.start, tpInstant meeting.stop with
  | some ms, some me => decide (s < me) && decide (e > ms)
  | _, _ => false

/-- The projection `{id, summary, start, end, attendees}` returned for a
conflicting meeting. -/
structure ConflictInfo where
  id : String
  summary : String
  start : Option TimePoint
  stop : Option TimePoint
  attendees : List Attendee
deriving DecidableEq, Repr

def conflictProj (meeting : CalEvent) : ConflictInfo :=
  { id := meeting.id, summary := meeting.summary, start := meeting.start,
    stop := meeting.stop, attendees := meeting.attendees }

/-- The filter of `checkMeetingConflict`: drop tasks, and drop the event
being updated (`excludeEventId && event.id === excludeEventId`; with a
null `excludeEventId` nothing is dropped). -/
def conflictCandidates (events : List CalEvent) (excludeEventId : Option String) :
    List CalEvent :=
  events.filter fun event =>
    !event.isTask &&
      !(match excludeEventId with
        | some x => event.id == x
        | none => false)

/-- The result of the aggregating `getEvents` as `checkMeetingConflict`
consumes it (`eventsResult.success`, `eventsResult.events`). -/
structure EventsResult where
  success : Bool
  events : Option (List CalEvent)
deriving DecidableEq, Repr

/-- Embedding of `checkMeetingConflict` (voiceRoutes.js 59-123), with the widened-range
fetch supplied as `fetchResult`.  Returns `none` when either bound is
missing, when the fetch failed or produced no `events` array, and
otherwise the first non-task, non-excluded event whose window overlaps
`[start, end)` — projected to `{id, summary, start, end, attendees}`. -/
def checkMeetingConflict (fetchResult : EventsResult)
    (startTime endTime : Option Int) (excludeEventId : Option String) :
    Option ConflictInfo :=
  match startTime, endTime with
  | some s, some e =>
    if fetchResult.success then
      match fetchResult.events with
      | some events =>
        ((conflictCandidates events excludeEventId).find? (overlapsWindow s e)).map
          conflictProj
      | none => none
    else none
  | _, _ => none

/-! ## Aggregating `getEvents` (outlookTasksService.js 240-417) -/

/-- The settled outcome of one adapter fetch after the `.catch` wrapper:
a rejected promise becomes `{success: false, events/tasks: []}`, so every
outcome is a record with a `success` flag and an optional item array
(the source checks both `result.success && result.events`). -/
structure FetchOutcome where
  success : Bool
  items : Option (List CalEvent)
deriving DecidableEq, Repr

/-- The contribution of one adapter to `allEvents`: its items tagged with
`source` (and `isTask` where the source sets it) when it succeeded and
returned an array, nothing otherwise. -/
def FetchOutcome.contribution (r : FetchOutcome) (tag : CalEvent → CalEvent) :
    List CalEvent :=
  if r.success then
    match r.items with
    | some items => items.map tag
    | none => []
  else []

/-- The `filters` as the aggregator uses them: only `maxResults` influences
the post-merge pipeline. -/
structure Filters where
  maxResults : Option Nat := none
deriving DecidableEq, Repr

/-- Sort key of the aggregator's comparator
`new Date(a.start?.dateTime || a.start?.date || 0)`: the parsed
`dateTime` if present (`none` = `NaN`), else the date-only midnight,
else instant `0`. -/
def sortKey (e : CalEvent) : Option Int :=
  match e.start with
  | some tp =>
    match tp.dateTime with
    | some dt => dt.parse
    | none =>
      match tp.date with
      | some d => some d
      | none => some 0
  | none => some 0

/-- Total Boolean order on events by sort key (`NaN` keys collapsed to
`0`; the comparator's behaviour on `NaN` is unspecified in JavaScript,
and the sortedness theorem below is stated for `NaN`-free lists). -/
def startLE (a b : CalEvent) : Bool :=
  decide ((sortKey a).getD 0 ≤ (sortKey b).getD 0)

structure GetEventsResult where
  success : Bool
  events : List CalEvent
deriving DecidableEq, Repr

/-- The merged list `allEvents` of the combined-mode branch of the
aggregating `getEvents` (both tokens present): Google events tagged
`source: 'google', isTask: false`, Outlook events tagged
`source: 'outlook'`, Google and Outlook tasks tagged with their source
and `isTask: true`, in that push order. -/
def combinedAllEvents (googleResult outlookResult googleTasksResult outlookTasksResult :
    FetchOutcome) : List CalEvent :=
  googleResult.contribution (fun e => { e with source := some "google", isTask := false })
    ++ outlookResult.contribution (fun e => { e with source := some "outlook" })
    ++ googleTasksResult.contribution (fun e => { e with source := some "google", isTask := true })
    ++ outlookTasksResult.contribution (fun e => { e with source := some "outlook", isTask := true })

/-- The tail of the aggregating `getEvents`: normalize every merged
event, sort by start instant (JavaScript's `Array.prototype.sort` is
stable; `List.mergeSort` is the stable sort with the same comparator),
then truncate to `maxResults` when given. -/
def sortAndLimit (allEvents : List CalEvent) (filters : Filters) : GetEventsResult :=
  let normalizedEvents := allEvents.map normalizeEventToUTC
  let sorted := normalizedEvents.mergeSort startLE
  { success := true
    events :=
      match filters.maxResults with
      | some n => sorted.take n
      | none => sorted }

/-- Combined-mode `getEvents` (both provider tokens present), with the
four parallel adapter outcomes supplied as parameters. -/
def getEventsCombined (googleResult outlookResult googleTasksResult outlookTasksResult :
    FetchOutcome) (filters : Filters) : GetEventsResult :=
  sortAndLimit
    (combinedAllEvents googleResult outlookResult googleTasksResult outlookTasksResult)
    filters

/-! ## Orchestrator data: tool calls, parameters, conversation turns -/

/-- A `duration` argument as JavaScript sees it: a number or a string.
Truthiness and `parseInt` follow the JavaScript semantics (for a number
the integer itself; for a string, optional sign then leading decimal
digits, `NaN` when there are none). -/
inductive Dur where
  | num (n : Int)
  | str (s : String)
deriving DecidableEq, Repr

/-- Leading decimal-digit run of a character list, `none` when empty. -/
def leadingNat (cs : List Char) : Option Nat :=
  match cs.takeWhile Char.isDigit with
  | [] => none
  | ds => some (ds.foldl (fun acc c => acc * 10 + (c.toNat - '0'.toNat)) 0)

/-- JavaScript `parseInt` on ordinary decimal strings: skip leading
whitespace, optional sign, leading digit run; `none` models `NaN`. -/
def jsParseInt (s : String) : Option Int :=
  match s.data.dropWhile (fun c => c = ' ' || c = '\t' || c = '\n' || c = '\r') with
  | '-' :: rest => (leadingNat rest).map (fun n => -(n : Int))
  | '+' :: rest => (leadingNat rest).map (fun n => (n : Int))
  | cs => (leadingNat cs).map (fun n => (n : Int))

def Dur.truthy : Dur → Bool
  | .num n => n != 0
  | .str s => s != ""

def Dur.toInt : Dur → Option Int
  | .num n => some n
  | .str s => jsParseInt s

/-- The parsed `arguments` object of a tool call (all fields optional). -/
structure Params where
  calendar : Option String := none
  summary : Option String := none
  title : Option String := none
  description : Option String := none
  notes : Option String := none
  startTime : Option Int := none
  endTime : Option Int := none
  duration : Option Dur := none
  due : Option Int := none
  attendees : Option (List Attendee) := none
  eventId : Option String := none
  taskId : Option String := none
deriving DecidableEq, Repr

structure ToolCall where
  id : String := ""
  name : String
  arguments : Params := {}
deriving DecidableEq, Repr

/-- A successful intent-resolver response: an optional natural-language
message and the tool-call list (`undefined` modelled as `[]`). -/
structure LLMResponse where
  message : Option String := none
  toolCalls : List ToolCall := []
deriving DecidableEq, Repr

/-- An adapter/tool result as the orchestrator passes it around
(`success` flag plus opaque payload). -/
structure SvcResult where
  success : Bool := true
  data : String := ""
deriving DecidableEq, Repr

inductive MsgContent where
  | nullC
  | textC (s : String)
  | toolResultC (r : SvcResult)
  | pendingC (name : String) (params : Params)
deriving DecidableEq, Repr

/-- One conversation turn as pushed onto `conversationHistory`. -/
structure Msg where
  role : String
  content : MsgContent := .nullC
  tool_calls : List ToolCall := []
  tool_call_id : Option String := none
deriving DecidableEq, Repr

def assistantToolMsg (tcs : List ToolCall) : Msg :=
  { role := "assistant", content := .nullC, tool_calls := tcs }

def toolResultMsg (id : String) (r : SvcResult) : Msg :=
  { role := "tool", content := .toolResultC r, tool_call_id := some id }

def pendingMsg (id : String) (name : String) (params : Params) : Msg :=
  { role := "tool", content := .pendingC name params, tool_call_id := some id }

def assistantTextMsg (m : Option String) : Msg :=
  { role := "assistant", content := m.elim .nullC .textC }

/-- One call into the aggregating calendar service or a best-effort
detail fetch, as recorded on a request's trace.  Constructor names match
the service functions (`getEvents`/`getTasks` appear as the two list
reads; the detail/conflict fetches are reads against provider APIs). -/
inductive SvcCall where
  | listEvents (calendar : Option String) (p : Params)
  | listTasks (calendar : Option String) (p : Params)
  | createEvent (calendar : Option String) (p : Params)
  | updateEvent (calendar : Option String) (eventId : Option String) (p : Params)
  | deleteEvent (calendar : Option String) (eventId : Option String)
  | createTask (calendar : Option String) (p : Params)
  | updateTask (calendar : Option String) (taskId : Option String) (p : Params)
  | deleteTask (calendar : Option String) (taskId : Option String)
  | eventDetailsFetch (eventId : String)
  | taskDetailsFetch
  | conflictCheckFetch
deriving DecidableEq, Repr

/-- Whether a service call is one of the six adapter mutation
dispatches (`createEvent`, `updateEvent`, `deleteEvent`, `createTask`,
`updateTask`, `deleteTask`). -/
def SvcCall.isMutation : SvcCall → Bool
  | .createEvent _ _ => true
  | .updateEvent _ _ _ => true
  | .deleteEvent _ _ => true
  | .createTask _ _ => true
  | .updateTask _ _ _ => true
  | .deleteTask _ _ => true
  | _ => false

/-- The `eventDetails` embedded in a preview for update/delete. -/
structure EventDetails where
  summary : Option String := none
  description : Option String := none
  start : Option TimePoint := none
  stop : Option TimePoint := none
  attendees : Option (List Attendee) := none
deriving DecidableEq, Repr

/-- The due lookup `task.start?.date || task.start?.dateTime || task.due || null` for the
`due` of a task preview. -/
inductive DueVal where
  | fromDate (d : Int)
  | fromDateTime (s : DTStr)
  | fromDue (m : Int)
deriving DecidableEq, Repr

structure TaskDetails where
  title : String := ""
  notes : String := ""
  due : Option DueVal := none
deriving DecidableEq, Repr

/-- Result of the aggregating `getTasks` as the task-detail lookup
consumes it. -/
structure TasksResult where
  success : Bool
  tasks : Option (List CalEvent)
deriving DecidableEq, Repr

/-- The oracles one request sees: the next-full-hour default instant, the
second LLM call, the adapter read results, the best-effort detail
fetches, the conflict-check fetch, and the mutation results. -/
structure Env where
  nextHour : Int := 0
  llm2 : List Msg → LLMResponse := fun _ => {}
  listEventsResult : SvcResult := {}
  listTasksResult : SvcResult := {}
  eventDetails : String → Option EventDetails := fun _ => none
  taskFetch : TasksResult := { success := false, tasks := none }
  conflictFetch : EventsResult := { success := false, events := none }
  mutationResult : SvcCall → SvcResult := fun _ => {}

/-- Embedding of `executeTool` (voiceRoutes.js 126-166): strip `calendar` from the
parameters and dispatch on the tool name; unknown tools produce a
failure result without any service call. -/
def executeTool (env : Env) (tc : ToolCall) : List SvcCall × SvcResult :=
  let params := tc.arguments
  let calendar := params.calendar
  let serviceParams := { params with calendar := none }
  match tc.name with
  | "list_calendar_events" => ([.listEvents calendar serviceParams], env.listEventsResult)
  | "list_tasks" => ([.listTasks calendar serviceParams], env.listTasksResult)
  | "create_calendar_event" =>
    let c := SvcCall.createEvent calendar serviceParams
    ([c], env.mutationResult c)
  | "update_calendar_event" =>
    let c := SvcCall.updateEvent calendar serviceParams.eventId serviceParams
    ([c], env.mutationResult c)
  | "delete_calendar_event" =>
    let c := SvcCall.deleteEvent calendar serviceParams.eventId
    ([c], env.mutationResult c)
  | "create_task" =>
    let c := SvcCall.createTask calendar serviceParams
    ([c], env.mutationResult c)
  | "update_task" =>
    let c := SvcCall.updateTask calendar serviceParams.taskId serviceParams
    ([c], env.mutationResult c)
  | "delete_task" =>
    let c := SvcCall.deleteTask calendar serviceParams.taskId
    ([c], env.mutationResult c)
  | _ => ([], { success := false, data := "Unknown tool" })

def isMutatingName (n : String) : Bool :=
  n = "create_calendar_event" || n = "delete_calendar_event" || n = "update_calendar_event" ||
    n = "create_task" || n = "delete_task" || n = "update_task"

/-- The check `!email || !email.includes('@') || !email.includes('.') || email.length < 5`
(`includes` of a single character as membership in the character list). -/
def invalidEmail (a : Attendee) : Bool :=
  match a.email with
  | none => true
  | some email =>
    !(email.data.contains '@') || !(email.data.contains '.') ||
      decide (email.length < 5)

/-- The check `!params.attendees || params.attendees.length === 0`. -/
def attendeesMissing (p : Params) : Bool :=
  match p.attendees with
  | none => true
  | some l => l.isEmpty

/-- Whether the email filter finds at least one invalid attendee. -/
def hasInvalidEmail (p : Params) : Bool :=
  match p.attendees with
  | some l => !(l.filter invalidEmail).isEmpty
  | none => false

/-- The default `parseInt(params.duration) || 30` under `if (params.duration)`, then
`startTime.getTime() + durationMinutes * 60 * 1000`. -/
def computeDefaultEnd (startMs : Int) (duration : Option Dur) : Int :=
  let durationMinutes : Int :=
    match duration with
    | some d =>
      if d.truthy then
        match d.toInt with
        | some k => if k = 0 then 30 else k
        | none => 30
      else 30
    | none => 30
  startMs + durationMinutes * 60 * 1000

/-- The create-event smart defaults: missing `startTime` becomes the next
full hour; missing `endTime` becomes start plus the declared duration (or
30 minutes). -/
def applyCreateDefaults (env : Env) (p : Params) : Params :=
  let withStart :=
    match p.startTime with
    | none => { p with startTime := some env.nextHour }
    | some _ => p
  match p.endTime, withStart.startTime with
  | none, some s => { withStart with endTime := some (computeDefaultEnd s p.duration) }
  | _, _ => withStart

/-- Here `jsStrOr m d` is the JavaScript `m || d` on an optional string. -/
def jsStrOr (m : Option String) (d : String) : String :=
  match m with
  | some s => if s = "" then d else s
  | none => d

/-- The response text of a handler, with the interpolated confirmation
sentences kept abstract: each constructor records exactly the values the
source interpolates (locale formatting of instants is not modelled and is
identical between the `/command` and `/stream` renderings up to the
formatting helper used). -/
inductive RespText where
  | lit (s : String)
  | confirmCreate (summary : Option String) (startTime : Option Int)
  | confirmUpdate (details : EventDetails)
  | confirmUpdateFallback (summary : Option String)
  | confirmDelete (details : EventDetails)
  | confirmDeleteFallback (summary : Option String)
  | confirmCreateTask (title : Option String) (due : Option Int)
  | confirmUpdateTask (title : String)
  | confirmUpdateTaskFallback (title : Option String)
  | confirmDeleteTask (title : String)
  | confirmDeleteTaskFallback (title : Option String)
  | confirmDefault
deriving DecidableEq, Repr

/-- The `ActionPreview` `{type: name, ...params, eventDetails?,
taskDetails?, conflict?}`.  `conflict = none` means the field was never
set (the `/command` path); `some c` means it was assigned `c` (possibly
null). -/
structure ActionPreview where
  type : String
  args : Params
  eventDetails : Option EventDetails := none
  taskDetails : Option TaskDetails := none
  conflict : Option (Option ConflictInfo) := none
deriving DecidableEq, Repr

/-- The best-effort event-details fetch guarding on
`(name === 'delete_calendar_event' || name === 'update_calendar_event') && params.eventId`
(shared verbatim between `/command` and `/stream`). -/
def eventDetailsStep (env : Env) (name : String) (params : Params) :
    List SvcCall × Option EventDetails :=
  match params.eventId with
  | some eid =>
    if name = "delete_calendar_event" ∨ name = "update_calendar_event" then
      ([SvcCall.eventDetailsFetch eid], env.eventDetails eid)
    else ([], none)
  | none => ([], none)

/-! ## `/command` tool-dispatch phase (voiceRoutes.js 337-572) -/

/-- The JSON body of a `/command` response from the tool-dispatch phase
onward (all three return sites include the updated history). -/
structure RespBody where
  success : Bool := true
  response : Option RespText := none
  needsConfirmation : Bool := false
  needsClarification : Bool := false
  executed : Bool := false
  action : Option ActionPreview := none
  result : Option SvcResult := none
  conversationHistory : List Msg := []
deriving DecidableEq, Repr

/-- The `/command` confirmation-message switch (only event actions are
rendered specially; everything else gets `'Confirm this action?'`). -/
def commandConfirmMsg (name : String) (params : Params) (preview : ActionPreview) :
    RespText :=
  if name = "create_calendar_event" then
    .confirmCreate params.summary params.startTime
  else if name = "update_calendar_event" then
    match preview.eventDetails with
    | some d => .confirmUpdate d
    | none => .confirmUpdateFallback params.summary
  else if name = "delete_calendar_event" then
    match preview.eventDetails with
    | some d => .confirmDelete d
    | none => .confirmDeleteFallback params.summary
  else .confirmDefault

/-- The tool-dispatch phase of `POST /api/voice/command` (after a
successful LLM call), returning the trace of service calls and the JSON
response.  `list_calendar_events` executes immediately and re-invokes the
resolver for a summary; every other tool name goes to the confirmation
path, with the create-event validations and smart defaults; no tool call
is absent because the caller branches on `llmResponse.toolCalls.length > 0`
(`toolCalls = []` here models the clarification branch). -/
def commandToolPhase (env : Env) (history : List Msg) (llm : LLMResponse) :
    List SvcCall × RespBody :=
  match llm.toolCalls with
  | [] =>
    let hist1 := history ++ [assistantTextMsg llm.message]
    ([], { response := llm.message.map .lit, needsClarification := true,
           conversationHistory := hist1 })
  | tc :: _ =>
    let name := tc.name
    let params := tc.arguments
    if name = "list_calendar_events" then
      let er := executeTool env tc
      let hist1 := history ++ [assistantToolMsg llm.toolCalls, toolResultMsg tc.id er.2]
      let finalResponse := env.llm2 hist1
      (er.1,
        { response := some (.lit (jsStrOr finalResponse.message "Here are your events")),
          executed := true, result := some er.2, conversationHistory := hist1 })
    else
      let hist1 := history ++ [assistantToolMsg llm.toolCalls, pendingMsg tc.id name params]
      if name = "create_calendar_event" ∧ attendeesMissing params then
        ([], { response := some (.lit "Who should attend this meeting?"),
               needsClarification := true, conversationHistory := hist1 })
      else if name = "create_calendar_event" ∧ hasInvalidEmail params then
        ([], { response := some (.lit "Please provide valid email addresses for all attendees."),
               needsClarification := true, conversationHistory := hist1 })
      else
        let args := if name = "create_calendar_event" then applyCreateDefaults env params else params
        let step := eventDetailsStep env name params
        let preview : ActionPreview := { type := name, args := args, eventDetails := step.2 }
        (step.1,
          { response := some (commandConfirmMsg name params preview),
            needsConfirmation := true, action := some preview,
            conversationHistory := hist1 })

/-! ## `/stream` tool-dispatch phase (voiceRoutes.js 753-1354) -/

/-- The terminal SSE `response` frame of `/stream` (the frame has no
conversation history). -/
structure StreamBody where
  response : Option RespText := none
  needsConfirmation : Bool := false
  needsClarification : Bool := false
  executed : Bool := false
  action : Option ActionPreview := none
  result : Option SvcResult := none
deriving DecidableEq, Repr

/-- The task-detail lookup for update/delete task previews: an
aggregating `getTasks` fetch, then `tasks.find(t => t.id === taskId)`. -/
def lookupTaskDetails (env : Env) (tid : String) : Option TaskDetails :=
  if env.taskFetch.success then
    match env.taskFetch.tasks with
    | some tasks =>
      (tasks.find? (fun t => t.id == tid)).map fun task =>
        { title := task.summary
          notes := task.description
          due :=
            match task.start with
            | some tp =>
              match tp.date with
              | some d => some (.fromDate d)
              | none =>
                match tp.dateTime with
                | some dt => some (.fromDateTime dt)
                | none => task.due.map .fromDue
            | none => task.due.map .fromDue }
    | none => none
  else none

/-- The `/stream` confirmation-message switch (covers the task actions
as well). -/
def streamConfirmMsg (name : String) (params : Params) (preview : ActionPreview) :
    RespText :=
  if name = "create_calendar_event" then
    .confirmCreate params.summary params.startTime
  else if name = "update_calendar_event" then
    match preview.eventDetails with
    | some d => .confirmUpdate d
    | none => .confirmUpdateFallback params.summary
  else if name = "delete_calendar_event" then
    match preview.eventDetails with
    | some d => .confirmDelete d
    | none => .confirmDeleteFallback params.summary
  else if name = "create_task" then
    .confirmCreateTask params.title params.due
  else if name = "update_task" then
    match preview.taskDetails with
    | some td => .confirmUpdateTask td.title
    | none => .confirmUpdateTaskFallback params.title
  else if name = "delete_task" then
    match preview.taskDetails with
    | some td => .confirmDeleteTask td.title
    | none => .confirmDeleteTaskFallback params.title
  else .confirmDefault

/-- The best-effort task-details fetch guarding on
`(name === 'delete_task' || name === 'update_task') && params.taskId`. -/
def taskDetailsStep (env : Env) (name : String) (params : Params) :
    List SvcCall × Option TaskDetails :=
  match params.taskId with
  | some tid =>
    if name = "delete_task" ∨ name = "update_task" then
      ([SvcCall.taskDetailsFetch], lookupTaskDetails env tid)
    else ([], none)
  | none => ([], none)

/-- The conflict-check step: only for create, or for update with a time
window being changed; a missing bound yields `conflict = null` without a
fetch. -/
def conflictStep (env : Env) (name : String) (params args : Params) :
    List SvcCall × Option (Option ConflictInfo) :=
  if name = "create_calendar_event" ∨
      (name = "update_calendar_event" ∧ (params.startTime.isSome ∨ params.endTime.isSome)) then
    match args.startTime, args.endTime with
    | some s, some e =>
      let excl := if name = "update_calendar_event" then params.eventId else none
      ([SvcCall.conflictCheckFetch],
        some (checkMeetingConflict env.conflictFetch (some s) (some e) excl))
    | _, _ => ([], some none)
  else ([], some none)

/-- The shared confirmation-preview construction of `/stream`: event
details for update/delete events, task details for update/delete tasks,
the conflict check when a time window is being set (`args` carries the
possibly-defaulted preview arguments, `params` the original tool
arguments, exactly as the source reads them). -/
def streamPreviewPhase (env : Env) (name : String) (params args : Params) :
    List SvcCall × StreamBody :=
  let step1 := eventDetailsStep env name params
  let step2 := taskDetailsStep env name params
  let step3 := conflictStep env name params args
  let preview : ActionPreview :=
    { type := name, args := args, eventDetails := step1.2, taskDetails := step2.2,
      conflict := step3.2 }
  (step1.1 ++ step2.1 ++ step3.1,
    { response := some (streamConfirmMsg name params preview),
      needsConfirmation := true, action := some preview })

/-- The read-only branch of `/stream`: execute the list tool, append the
result to history, re-invoke the resolver — if its first tool call is
mutating, skip the list result and preview that call (with no validation
and no smart defaults); otherwise emit the executed list frame. -/
def streamListBranch (env : Env) (history : List Msg) (llm : LLMResponse) (tc : ToolCall) :
    List SvcCall × StreamBody :=
  let er := executeTool env tc
  let hist1 := history ++ [assistantToolMsg llm.toolCalls, toolResultMsg tc.id er.2]
  let nextLlm := env.llm2 hist1
  let chained :=
    match nextLlm.toolCalls with
    | nextTc :: _ =>
      if isMutatingName nextTc.name then
        some (streamPreviewPhase env nextTc.name nextTc.arguments nextTc.arguments)
      else none
    | [] => none
  match chained with
  | some pr => (er.1 ++ pr.1, pr.2)
  | none =>
    (er.1,
      { response := some (.lit (jsStrOr nextLlm.message
          (if tc.name = "list_tasks" then "Here are your tasks" else "Here are your events"))),
        executed := true, result := some er.2 })

/-- The tool-dispatch phase of `POST /api/voice/stream` (after a
successful LLM call): read-only tools execute immediately and the
resolver is re-invoked — if its next tool call is mutating the list
result is skipped and that call is previewed (with no validation and no
smart defaults); a non-list first tool goes to the confirmation path
with the create-event validations and defaults; `toolCalls = []` models
the clarification branch. -/
def streamToolPhase (env : Env) (history : List Msg) (llm : LLMResponse) :
    List SvcCall × StreamBody :=
  match llm.toolCalls with
  | [] => ([], { response := llm.message.map .lit, needsClarification := true })
  | tc :: _ =>
    let name := tc.name
    let params := tc.arguments
    if name = "list_calendar_events" ∨ name = "list_tasks" then
      streamListBranch env history llm tc
    else
      if name = "create_calendar_event" ∧ attendeesMissing params then
        ([], { response := some (.lit "Who should attend this meeting?"),
               needsClarification := true })
      else if name = "create_calendar_event" ∧ hasInvalidEmail params then
        ([], { response := some (.lit "Please provide valid email addresses for all attendees."),
               needsClarification := true })
      else
        let args := if name = "create_calendar_event" then applyCreateDefaults env params else params
        streamPreviewPhase env name params args

/-! ## `/execute` handler (voiceRoutes.js 1366-1564) -/

/-- A JSON string field that may be `undefined`, `null`, or a string —
`/execute` tests `action.description !== undefined`, which distinguishes
all three. -/
inductive JStrVal where
  | undef
  | jnull
  | strv (s : String)
deriving DecidableEq, Repr

def JStrVal.toOpt : JStrVal → Option String
  | .undef => none
  | .jnull => none
  | .strv s => some s

/-- The `action` body of an execute request (the echoed, possibly edited,
preview). -/
structure ActionIn where
  type : String
  calendar : Option String := none
  summary : Option String := none
  title : Option String := none
  notes : Option String := none
  description : JStrVal := .undef
  startTime : Option Int := none
  endTime : Option Int := none
  duration : Option Dur := none
  due : Option Int := none
  attendees : Option (List Attendee) := none
  eventId : Option String := none
  taskId : Option String := none
deriving DecidableEq, Repr

/-- The `/execute` response: a 200 body, a 400 validation error, the 500
echo of a failed adapter result, or the catch-all 500 (a thrown
exception, e.g. the `TypeError` from filtering absent attendees). -/
inductive ExecResponse where
  | ok (response : String) (cancelled : Bool) (result : Option SvcResult)
  | status400 (error : String)
  | status500Result (result : SvcResult)
  | status500Caught (error : String)
deriving DecidableEq, Repr

/-- Wrap an adapter result the way `/execute` does: `result.success` →
200 with `'Action completed successfully'`, otherwise the result is
echoed with status 500. -/
def execWrap (result : SvcResult) : ExecResponse :=
  if result.success then .ok "Action completed successfully" false (some result)
  else .status500Result result

/-- Embedding of `POST /api/voice/execute`: cancel without side effect when
`confirmed` is falsy; validate the action type; per-type field
validation; dispatch exactly one adapter mutation and wrap its result.
For `create_calendar_event` the source filters `action.attendees`
unconditionally, so an absent attendees field throws a `TypeError`
that the catch-all turns into a generic 500. -/
def executeHandler (env : Env) (action : Option ActionIn) (confirmed : Bool) :
    List SvcCall × ExecResponse :=
  match action with
  | none => ([], .status400 "Action details required")
  | some a =>
    if !confirmed then
      ([], .ok "Action cancelled" true none)
    else if !(a.type = "create_calendar_event" || a.type = "update_calendar_event" ||
        a.type = "delete_calendar_event" || a.type = "create_task" ||
        a.type = "update_task" || a.type = "delete_task") then
      ([], .status400 "Invalid action type")
    else if a.type = "create_calendar_event" then
      match a.attendees with
      | none => ([], .status500Caught "TypeError: action.attendees is undefined")
      | some attendees =>
        if !(attendees.filter invalidEmail).isEmpty then
          ([], .status400 "Please provide valid email addresses for all attendees")
        else
          let startTime := a.startTime.getD env.nextHour
          let endTime :=
            match a.endTime with
            | some e => e
            | none => computeDefaultEnd startTime a.duration
          let c := SvcCall.createEvent a.calendar
            { summary := a.summary, startTime := some startTime, endTime := some endTime,
              description := a.description.toOpt, attendees := some attendees }
          ([c], execWrap (env.mutationResult c))
    else if a.type = "update_calendar_event" then
      let hasUpdateFields := jsStrOr a.summary "" ≠ "" ∨ a.startTime.isSome ∨
        a.endTime.isSome ∨ a.description ≠ .undef ∨ a.attendees.isSome
      if ¬hasUpdateFields then
        ([], .status400 "At least one field must be provided for update")
      else
        let emailsBad :=
          match a.attendees with
          | some l => !l.isEmpty && !(l.filter invalidEmail).isEmpty
          | none => false
        if emailsBad then
          ([], .status400 "Please provide valid email addresses for all attendees")
        else
          let c := SvcCall.updateEvent a.calendar a.eventId
            { summary := a.summary, startTime := a.startTime, endTime := a.endTime,
              description := a.description.toOpt, attendees := a.attendees }
          ([c], execWrap (env.mutationResult c))
    else if a.type = "delete_calendar_event" then
      let c := SvcCall.deleteEvent a.calendar a.eventId
      ([c], execWrap (env.mutationResult c))
    else if a.type = "create_task" then
      let c := SvcCall.createTask a.calendar
        { title := a.title, notes := a.notes, due := a.due }
      ([c], execWrap (env.mutationResult c))
    else if a.type = "update_task" then
      let c := SvcCall.updateTask a.calendar a.taskId
        { title := a.title, notes := a.notes, due := a.due }
      ([c], execWrap (env.mutationResult c))
    else
      let c := SvcCall.deleteTask a.calendar a.taskId
      ([c], execWrap (env.mutationResult c))

/-- The [10:30, 10:45) meeting of the boundary scenario (instants in
abstract units). -/
def demoMeetingA : CalEvent :=
  { id := "a", summary := "standup",
    start := some { dateTime := some (.isoUTC 630) },
    stop := some { dateTime := some (.isoUTC 645) } }

/-- The adjacent [11:00, 12:00) meeting of the boundary scenario. -/
def demoMeetingB : CalEvent :=
  { id := "b", summary := "review",
    start := some { dateTime := some (.isoUTC 660) },
    stop := some { dateTime := some (.isoUTC 720) } }

/-- A well-formed confirmed create action, used to exhibit that the
execute step is where mutations dispatch. -/
def demoCreateAction : ActionIn :=
  { type := "create_calendar_event", startTime := some 0, endTime := some 1800000,
    attendees := some [{ email := some "a@x.com" }] }

/-- A confirmed create whose attendee list was edited to be empty. -/
def emptyAttendeesCreate : ActionIn :=
  { type := "create_calendar_event", startTime := some 0, endTime := some 1,
    attendees := some [] }

/-- A create carrying one syntactically invalid attendee email. -/
def badEmailCreate : ActionIn :=
  { type := "create_calendar_event", attendees := some [{ email := some "x" }] }

/-- A create with the attendees field absent altogether. -/
def noAttendeesCreate : ActionIn := { type := "create_calendar_event" }

/-- An update carrying one syntactically invalid attendee email. -/
def badEmailUpdate : ActionIn :=
  { type := "update_calendar_event", attendees := some [{ email := some "x" }] }

/-! ## Shared lemmas -/

/-- Normalizing a start/end object twice is the same as once. -/
theorem normalizeTimePoint_idem (tp : TimePoint) :
    normalizeTimePoint (normalizeTimePoint tp) = normalizeTimePoint tp := by
  rcases tp with ⟨dt?, d?, tz?⟩
  rcases dt? with _ | dt
  · rcases d? with _ | d <;> simp [normalizeTimePoint]
  · rcases dt with m | m | m | _ | m? <;>
      simp [normalizeTimePoint, DTStr.hasTZSuffix, DTStr.parse, toISOString]

/-- Normalizing an event twice is the same as once (helper shared by the
aggregator theorems). -/
theorem normalizeEventToUTC_idem (x : CalEvent) :
    normalizeEventToUTC (normalizeEventToUTC x) = normalizeEventToUTC x := by
  rcases x with ⟨_, _, _, s?, e?, _, _, _, _⟩
  rcases s? with _ | s <;> rcases e? with _ | e <;>
    simp [normalizeEventToUTC, normalizeTimePoint_idem]

/-! ## C5 — normalization idempotence -/

/-- C5: `normalizeEventToUTC` is idempotent: for every event `x` (in
particular any event whose start/end dateTime carries an explicit offset
or a `Z` suffix), normalizing twice equals normalizing once. -/
theorem normalizeEventToUTC_idempotent (x : CalEvent) :
    normalizeEventToUTC (normalizeEventToUTC x) = normalizeEventToUTC x :=
  normalizeEventToUTC_idem x

/-- A `dateTime` with a `Z`/offset suffix that parses is replaced by its
UTC rendering and the object is tagged `timeZone: 'UTC'`. -/
theorem normalizeTimePoint_convert (tp : TimePoint) (dt : DTStr) (m : Int)
    (hdt : tp.dateTime = some dt) (hsuf : dt.hasTZSuffix = true)
    (hparse : dt.parse = some m) :
    normalizeTimePoint tp =
      { tp with dateTime := some (toISOString m), timeZone := some "UTC" } := by
  unfold normalizeTimePoint
  rw [hdt]
  simp [hsuf, hparse]

/-- A date-only object is tagged `timeZone: 'UTC'` and otherwise kept. -/
theorem normalizeTimePoint_dateOnly (tp : TimePoint)
    (hdt : tp.dateTime = none) (hd : tp.date.isSome) :
    normalizeTimePoint tp = { tp with timeZone := some "UTC" } := by
  obtain ⟨d, hdd⟩ := Option.isSome_iff_exists.mp hd
  unfold normalizeTimePoint
  rw [hdt, hdd]

/-! ## C8 — conversion to UTC, and what happens to date-only values -/

/-- C8 counterexample: a date-only start object is **not** left
untouched — normalization adds `timeZone: 'UTC'` to it. -/
theorem normalize_dateOnly_not_untouched :
    (normalizeEventToUTC { start := some { date := some 0 } }).start ≠
      some ({ date := some 0 } : TimePoint) := by
  decide

/-- C8 (amended): a start/end `dateTime` carrying an explicit offset or
`Z` suffix is converted to its UTC `toISOString` rendering and tagged
`timeZone: 'UTC'`; a date-only start/end keeps its `date` value but is
also tagged `timeZone: 'UTC'` (rather than being left untouched). -/
theorem normalizeEventToUTC_fields (e : CalEvent) (tp : TimePoint) :
    (∀ dt m, e.start = some tp → tp.dateTime = some dt → dt.hasTZSuffix = true →
      dt.parse = some m →
      (normalizeEventToUTC e).start =
        some { tp with dateTime := some (toISOString m), timeZone := some "UTC" })
  ∧ (e.start = some tp → tp.dateTime = none → tp.date.isSome →
      (normalizeEventToUTC e).start = some { tp with timeZone := some "UTC" })
  ∧ (∀ dt m, e.stop = some tp → tp.dateTime = some dt → dt.hasTZSuffix = true →
      dt.parse = some m →
      (normalizeEventToUTC e).stop =
        some { tp with dateTime := some (toISOString m), timeZone := some "UTC" })
  ∧ (e.stop = some tp → tp.dateTime = none → tp.date.isSome →
      (normalizeEventToUTC e).stop = some { tp with timeZone := some "UTC" }) := by
  refine ⟨?_, ?_, ?_, ?_⟩
  · intro dt m hs hdt hsuf hparse
    have h1 : (normalizeEventToUTC e).start = e.start.map normalizeTimePoint := rfl
    rw [h1, hs]
    show some (normalizeTimePoint tp) = _
    rw [normalizeTimePoint_convert tp dt m hdt hsuf hparse]
  · intro hs hdt hdate
    have h1 : (normalizeEventToUTC e).start = e.start.map normalizeTimePoint := rfl
    rw [h1, hs]
    show some (normalizeTimePoint tp) = _
    rw [normalizeTimePoint_dateOnly tp hdt hdate]
  · intro dt m hs hdt hsuf hparse
    have h1 : (normalizeEventToUTC e).stop = e.stop.map normalizeTimePoint := rfl
    rw [h1, hs]
    show some (normalizeTimePoint tp) = _
    rw [normalizeTimePoint_convert tp dt m hdt hsuf hparse]
  · intro hs hdt hdate
    have h1 : (normalizeEventToUTC e).stop = e.stop.map normalizeTimePoint := rfl
    rw [h1, hs]
    show some (normalizeTimePoint tp) = _
    rw [normalizeTimePoint_dateOnly tp hdt hdate]

/-- Witness for C8 at concrete inputs: an offset-carrying start becomes
the canonical UTC rendering tagged UTC; a date-only start keeps its date
and gains the UTC tag. -/
theorem normalizeEventToUTC_fields_witness :
    (normalizeEventToUTC { start := some { dateTime := some (DTStr.withOffset 5) } }).start
      = some ({ dateTime := some (toISOString 5), timeZone := some "UTC" } : TimePoint)
  ∧ (normalizeEventToUTC { start := some { date := some 0 } }).start
      = some ({ date := some 0, timeZone := some "UTC" } : TimePoint) :=
  ⟨(normalizeEventToUTC_fields { start := some { dateTime := some (DTStr.withOffset 5) } }
      { dateTime := some (DTStr.withOffset 5) }).1 (DTStr.withOffset 5) 5 rfl rfl rfl rfl,
   (normalizeEventToUTC_fields { start := some { date := some 0 } }
      { date := some 0 }).2.1 rfl rfl (by decide)⟩

/-- Lemma: `find?` returns the first match: the list splits around the found
element with no match before it. -/
theorem find?_eq_some_split {α : Type} (p : α → Bool) (l : List α) (a : α)
    (h : l.find? p = some a) :
    ∃ pre suf, l = pre ++ a :: suf ∧ p a = true ∧ ∀ x ∈ pre, p x = false := by
  induction l with
  | nil => simp at h
  | cons b t ih =>
    by_cases hb : p b
    · rw [List.find?_cons_of_pos _ hb] at h
      cases h
      exact ⟨[], t, rfl, hb, by simp⟩
    · rw [List.find?_cons_of_neg _ hb] at h
      obtain ⟨pre, suf, hsplit, hpa, hpre⟩ := ih h
      refine ⟨b :: pre, suf, by rw [hsplit]; rfl, hpa, ?_⟩
      intro x hx
      rcases List.mem_cons.mp hx with rfl | hx'
      · revert hb; cases p x <;> simp
      · exact hpre x hx'

/-! ## C3 — conflict detection: half-open overlap against fetched events -/

/-- C3: with a successful fetch, `checkMeetingConflict` returns a
conflict exactly when some fetched non-task event other than
`excludeEventId` satisfies `startTime < e.end ∧ endTime > e.start`, and
it returns the first such event (projected to
`{id, summary, start, end, attendees}`); the overlap test is the
half-open one on the events' instants.  In particular a [10:00, 11:00)
window conflicts with a [10:30, 10:45) meeting and not with an adjacent
[11:00, 12:00) one. -/
theorem checkMeetingConflict_spec (events : List CalEvent) (s e : Int)
    (excl : Option String) :
    ((checkMeetingConflict ⟨true, some events⟩ (some s) (some e) excl).isSome ↔
      ∃ ev ∈ conflictCandidates events excl, overlapsWindow s e ev = true)
  ∧ (∀ c, checkMeetingConflict ⟨true, some events⟩ (some s) (some e) excl = some c →
      ∃ pre ev suf, conflictCandidates events excl = pre ++ ev :: suf ∧
        overlapsWindow s e ev = true ∧ c = conflictProj ev ∧
        ∀ p ∈ pre, overlapsWindow s e p = false)
  ∧ (∀ (ev : CalEvent) (ms me : Int), tpInstant ev.start = some ms →
      tpInstant ev.stop = some me →
      (overlapsWindow s e ev = true ↔ (s < me ∧ e > ms)))
  ∧ checkMeetingConflict ⟨true, some [demoMeetingA]⟩ (some 600) (some 660) none
      = some (conflictProj demoMeetingA)
  ∧ checkMeetingConflict ⟨true, some [demoMeetingB]⟩ (some 600) (some 660) none
      = none := by
  refine ⟨?_, ?_, ?_, by decide, by decide⟩
  · show ((((conflictCandidates events excl).find? (overlapsWindow s e)).map conflictProj).isSome ↔ _)
    have hiso : ∀ (x : Option CalEvent), (x.map conflictProj).isSome = x.isSome := by
      intro x; cases x <;> rfl
    rw [hiso]
    simp
  · intro c hc
    have hc' : ((conflictCandidates events excl).find? (overlapsWindow s e)).map conflictProj
        = some c := hc
    obtain ⟨ev, hev, rfl⟩ := Option.map_eq_some'.mp hc'
    obtain ⟨pre, suf, hsplit, hov, hpre⟩ := find?_eq_some_split _ _ _ hev
    exact ⟨pre, ev, suf, hsplit, hov, rfl, hpre⟩
  · intro ev ms me hs' he'
    unfold overlapsWindow
    rw [hs', he']
    simp [and_comm]

/-- Witness for C3: the first-conflict decomposition and the arithmetic
overlap reading, instantiated on the [10:00, 11:00) vs [10:30, 10:45)
scenario. -/
theorem checkMeetingConflict_spec_witness :
    (∃ pre ev suf, conflictCandidates [demoMeetingA] none = pre ++ ev :: suf ∧
        overlapsWindow 600 660 ev = true ∧ conflictProj demoMeetingA = conflictProj ev ∧
        ∀ p ∈ pre, overlapsWindow 600 660 p = false)
  ∧ (overlapsWindow 600 660 demoMeetingA = true ↔ ((600 : Int) < 645 ∧ (660 : Int) > 630)) :=
  ⟨(checkMeetingConflict_spec [demoMeetingA] 600 660 none).2.1
      (conflictProj demoMeetingA) (by decide),
   (checkMeetingConflict_spec [demoMeetingA] 600 660 none).2.2.1
      demoMeetingA 630 645 (by decide) (by decide)⟩

/-! ## C4 — unconfirmed execute cancels with no side effect -/

/-- C4: an execute request carrying an action with `confirmed` falsy
responds `{success: true, response: 'Action cancelled', cancelled: true}`
and performs no adapter call at all (empty trace). -/
theorem executeHandler_cancelled (env : Env) (a : ActionIn) :
    executeHandler env (some a) false = ([], .ok "Action cancelled" true none) := by
  simp [executeHandler]

/-! ## C10 — default end time from duration -/

/-- C10: when `endTime` is absent and a start instant is available, the
computed end is start plus `parseInt(duration)` minutes when the duration
parses to a nonzero integer, and start plus 30 minutes otherwise
(`parseInt` yielding 0 or `NaN`, or no duration at all); this governs
both the `/command`–`/stream` smart defaults (`applyCreateDefaults`) and
the `/execute` create dispatch. -/
theorem computeDefaultEnd_spec (s : Int) (d : Option Dur) (env : Env) (p : Params)
    (a : ActionIn) (l : List Attendee) :
    (∀ k : Int, d.bind Dur.toInt = some k → k ≠ 0 →
      computeDefaultEnd s d = s + k * 60 * 1000)
  ∧ ((d.bind Dur.toInt = none ∨ d.bind Dur.toInt = some 0) →
      computeDefaultEnd s d = s + 30 * 60 * 1000)
  ∧ (p.startTime = some s → p.endTime = none →
      (applyCreateDefaults env p).endTime = some (computeDefaultEnd s p.duration))
  ∧ (a.type = "create_calendar_event" → a.attendees = some l →
      l.filter invalidEmail = [] → a.startTime = some s → a.endTime = none →
      (executeHandler env (some a) true).1 =
        [SvcCall.createEvent a.calendar
          { summary := a.summary, startTime := some s,
            endTime := some (computeDefaultEnd s a.duration),
            description := a.description.toOpt, attendees := some l }]) := by
  refine ⟨?_, ?_, ?_, ?_⟩
  · intro k hk hknz
    unfold computeDefaultEnd
    cases d with
    | none => simp at hk
    | some dd =>
      have hk' : dd.toInt = some k := by simpa using hk
      cases dd with
      | num n =>
        have hn : n = k := by simpa [Dur.toInt] using hk'
        subst hn
        simp [Dur.truthy, Dur.toInt, hknz]
      | str s' =>
        have hps : jsParseInt s' = some k := by simpa [Dur.toInt] using hk'
        have hne : s' ≠ "" := by
          intro h
          subst h
          rw [show jsParseInt "" = none from rfl] at hps
          exact Option.noConfusion hps
        simp [Dur.truthy, Dur.toInt, hps, hknz, hne]
  · intro h
    unfold computeDefaultEnd
    cases d with
    | none => simp
    | some dd =>
      by_cases ht : dd.truthy
      · cases hk : dd.toInt with
        | none => simp [ht, hk]
        | some k =>
          have hk0 : k = 0 := by
            rcases h with h | h <;> simp [hk] at h
            exact h
          subst hk0
          simp [ht, hk]
      · simp [ht]
  · intro hst hend
    simp [applyCreateDefaults, hst, hend]
  · intro htype hatt hval hst hend
    simp [executeHandler, htype, hatt, hval, hst, hend]

/-- Witness for C10: a duration string `'45'` gives a 45-minute event;
`'0'` and a non-numeric string fall back to 30 minutes; the `/execute`
create dispatch carries the defaulted end. -/
theorem computeDefaultEnd_spec_witness :
    computeDefaultEnd 0 (some (.str "45")) = 0 + 45 * 60 * 1000
  ∧ computeDefaultEnd 0 (some (.str "0")) = 0 + 30 * 60 * 1000
  ∧ computeDefaultEnd 0 (some (.str "abc")) = 0 + 30 * 60 * 1000
  ∧ (applyCreateDefaults {} { startTime := some 0 }).endTime = some (computeDefaultEnd 0 none)
  ∧ (executeHandler {}
        (some { type := "create_calendar_event", startTime := some 0,
                attendees := some [{ email := some "a@x.com" }] }) true).1 =
      [SvcCall.createEvent none
        { summary := none, startTime := some 0, endTime := some (computeDefaultEnd 0 none),
          description := none, attendees := some [{ email := some "a@x.com" }] }] :=
  ⟨(computeDefaultEnd_spec 0 (some (.str "45")) {} {} { type := "" } []).1 45 (by decide) (by decide),
   (computeDefaultEnd_spec 0 (some (.str "0")) {} {} { type := "" } []).2.1 (Or.inr (by decide)),
   (computeDefaultEnd_spec 0 (some (.str "abc")) {} {} { type := "" } []).2.1 (Or.inl (by decide)),
   (computeDefaultEnd_spec 0 none {} { startTime := some 0 } { type := "" } []).2.2.1 rfl rfl,
   (computeDefaultEnd_spec 0 none {} {}
      { type := "create_calendar_event", startTime := some 0,
        attendees := some [{ email := some "a@x.com" }] }
      [{ email := some "a@x.com" }]).2.2.2 rfl rfl (by decide) rfl rfl⟩

/-- A failed adapter outcome contributes nothing to the merge. -/
theorem contribution_of_failure (r : FetchOutcome) (hr : r.success = false) :
    ∀ tag, r.contribution tag = [] := by
  intro tag
  unfold FetchOutcome.contribution
  rw [hr]
  simp

/-! ## C6 — combined-mode read tolerates a failing adapter -/

/-- C6: the combined-mode `getEvents` always reports `success: true`, a
failing adapter contributes no items, and the aggregate is exactly what
the surviving adapters produce: replacing any failed outcome by an empty
failure changes nothing. -/
theorem getEventsCombined_adapter_failure (g o gt ot : FetchOutcome) (f : Filters) :
    (getEventsCombined g o gt ot f).success = true
  ∧ (∀ (r : FetchOutcome) (tag : CalEvent → CalEvent), r.success = false →
      r.contribution tag = [])
  ∧ (g.success = false →
      getEventsCombined g o gt ot f = getEventsCombined ⟨false, none⟩ o gt ot f)
  ∧ (o.success = false →
      getEventsCombined g o gt ot f = getEventsCombined g ⟨false, none⟩ gt ot f)
  ∧ (gt.success = false →
      getEventsCombined g o gt ot f = getEventsCombined g o ⟨false, none⟩ ot f)
  ∧ (ot.success = false →
      getEventsCombined g o gt ot f = getEventsCombined g o gt ⟨false, none⟩ f) := by
  refine ⟨rfl, fun r tag hr => contribution_of_failure r hr tag, ?_, ?_, ?_, ?_⟩ <;>
    intro h <;>
    simp only [getEventsCombined, combinedAllEvents, contribution_of_failure _ h,
      contribution_of_failure ⟨false, none⟩ rfl]

/-- Witness for C6: with the Outlook events adapter failed (its payload
discarded by the catch), the combined read equals the read with that
adapter empty, and still succeeds. -/
theorem getEventsCombined_adapter_failure_witness :
    getEventsCombined ⟨true, some [demoMeetingA]⟩ ⟨false, some [demoMeetingB]⟩
        ⟨true, some []⟩ ⟨true, some []⟩ {} =
      getEventsCombined ⟨true, some [demoMeetingA]⟩ ⟨false, none⟩
        ⟨true, some []⟩ ⟨true, some []⟩ {}
  ∧ (getEventsCombined ⟨true, some [demoMeetingA]⟩ ⟨false, some [demoMeetingB]⟩
        ⟨true, some []⟩ ⟨true, some []⟩ {}).success = true :=
  ⟨(getEventsCombined_adapter_failure ⟨true, some [demoMeetingA]⟩
      ⟨false, some [demoMeetingB]⟩ ⟨true, some []⟩ ⟨true, some []⟩ {}).2.2.2.1 rfl,
   (getEventsCombined_adapter_failure ⟨true, some [demoMeetingA]⟩
      ⟨false, some [demoMeetingB]⟩ ⟨true, some []⟩ ⟨true, some []⟩ {}).1⟩

/-- The sort comparator is transitive. -/
theorem startLE_trans : ∀ (a b c : CalEvent), startLE a b → startLE b c → startLE a c := by
  intro a b c h1 h2
  simp only [startLE, decide_eq_true_eq] at *
  exact le_trans h1 h2

/-- The sort comparator is total. -/
theorem startLE_total : ∀ (a b : CalEvent), startLE a b || startLE b a := by
  intro a b
  simp only [startLE]
  rcases le_total ((sortKey a).getD 0) ((sortKey b).getD 0) with h | h <;> simp [h]

/-- Stability of the sort: the sublist of events sharing one sort key is
unchanged by sorting. -/
theorem mergeSort_filter_key (l : List CalEvent) (k : Int) :
    (l.mergeSort startLE).filter (fun ev => (sortKey ev).getD 0 == k)
      = l.filter (fun ev => (sortKey ev).getD 0 == k) := by
  have hpair : (l.filter (fun ev => (sortKey ev).getD 0 == k)).Pairwise
      (fun a b => startLE a b) := by
    apply List.pairwise_of_forall_mem_list
    intro a ha b hb
    have hpa : (sortKey a).getD 0 = k := by
      simpa using (List.mem_filter.mp ha).2
    have hpb : (sortKey b).getD 0 = k := by
      simpa using (List.mem_filter.mp hb).2
    simp [startLE, hpa, hpb]
  have hsub1 : List.Sublist (l.filter (fun ev => (sortKey ev).getD 0 == k)) (l.mergeSort startLE) :=
    List.sublist_mergeSort startLE_trans startLE_total hpair (List.filter_sublist l)
  have hperm : List.Perm ((l.mergeSort startLE).filter (fun ev => (sortKey ev).getD 0 == k))
      (l.filter (fun ev => (sortKey ev).getD 0 == k)) :=
    (List.mergeSort_perm l startLE).filter _
  have hsub2 : List.Sublist (l.filter (fun ev => (sortKey ev).getD 0 == k))
      ((l.mergeSort startLE).filter (fun ev => (sortKey ev).getD 0 == k)) := by
    have h3 := hsub1.filter (fun ev => (sortKey ev).getD 0 == k)
    simpa [List.filter_filter] using h3
  exact (hsub2.eq_of_length hperm.length_eq.symm).symm

/-! ## C7 — aggregator output: normalized, stably sorted, truncated -/

/-- C7: under defined start keys, every combined `getEvents` output is
sorted ascending by start instant (date-only entries keyed by their UTC
midnight), every returned event is normalized (a fixed point of
`normalizeEventToUTC`), events with equal keys keep their merge order,
and a `maxResults` filter returns exactly the prefix of the unlimited
sorted list. -/
theorem getEventsCombined_sorted_limited (g o gt ot : FetchOutcome) (f : Filters)
    (n : Nat)
    (hkeys : ∀ ev ∈ (combinedAllEvents g o gt ot).map normalizeEventToUTC,
      (sortKey ev).isSome) :
    ((getEventsCombined g o gt ot f).events).Pairwise
        (fun a b => ∃ ka kb, sortKey a = some ka ∧ sortKey b = some kb ∧ ka ≤ kb)
  ∧ (∀ ev ∈ (getEventsCombined g o gt ot f).events, normalizeEventToUTC ev = ev)
  ∧ (getEventsCombined g o gt ot { maxResults := some n }).events =
      ((getEventsCombined g o gt ot { maxResults := none }).events).take n
  ∧ (∀ k : Int, ((getEventsCombined g o gt ot { maxResults := none }).events).filter
        (fun ev => (sortKey ev).getD 0 == k) =
      ((combinedAllEvents g o gt ot).map normalizeEventToUTC).filter
        (fun ev => (sortKey ev).getD 0 == k)) := by
  have hsorted : (((combinedAllEvents g o gt ot).map normalizeEventToUTC).mergeSort
      startLE).Pairwise (fun a b => startLE a b) :=
    List.sorted_mergeSort startLE_trans startLE_total _
  have hevents : (getEventsCombined g o gt ot f).events =
      match f.maxResults with
      | some m => (((combinedAllEvents g o gt ot).map normalizeEventToUTC).mergeSort
          startLE).take m
      | none => ((combinedAllEvents g o gt ot).map normalizeEventToUTC).mergeSort
          startLE := rfl
  have hsubl : List.Sublist (getEventsCombined g o gt ot f).events
      (((combinedAllEvents g o gt ot).map normalizeEventToUTC).mergeSort startLE) := by
    rw [hevents]
    cases f.maxResults with
    | none => exact List.Sublist.refl _
    | some m => exact List.take_sublist _ _
  have hmemnorm : ∀ ev ∈ (getEventsCombined g o gt ot f).events,
      ev ∈ (combinedAllEvents g o gt ot).map normalizeEventToUTC := by
    intro ev hev
    exact List.mem_mergeSort.mp (hsubl.mem hev)
  refine ⟨?_, ?_, rfl, ?_⟩
  · have hp : ((getEventsCombined g o gt ot f).events).Pairwise
        (fun a b => startLE a b) := hsorted.sublist hsubl
    refine hp.imp_of_mem ?_
    intro a b ha hb hab
    obtain ⟨ka, hka⟩ := Option.isSome_iff_exists.mp (hkeys a (hmemnorm a ha))
    obtain ⟨kb, hkb⟩ := Option.isSome_iff_exists.mp (hkeys b (hmemnorm b hb))
    refine ⟨ka, kb, hka, hkb, ?_⟩
    simpa [startLE, hka, hkb] using hab
  · intro ev hev
    obtain ⟨x, _, rfl⟩ := List.mem_map.mp (hmemnorm ev hev)
    exact normalizeEventToUTC_idem x
  · intro k
    exact mergeSort_filter_key _ k

/-- Witness for C7 at a concrete merge (two Google events supplied out
of order, every key defined). -/
theorem getEventsCombined_sorted_limited_witness :
    ((getEventsCombined ⟨true, some [demoMeetingB, demoMeetingA]⟩ ⟨false, none⟩
        ⟨true, some []⟩ ⟨true, some []⟩ {}).events).Pairwise
      (fun a b => ∃ ka kb, sortKey a = some ka ∧ sortKey b = some kb ∧ ka ≤ kb)
  ∧ (getEventsCombined ⟨true, some [demoMeetingB, demoMeetingA]⟩ ⟨false, none⟩
        ⟨true, some []⟩ ⟨true, some []⟩ { maxResults := some 1 }).events =
      ((getEventsCombined ⟨true, some [demoMeetingB, demoMeetingA]⟩ ⟨false, none⟩
        ⟨true, some []⟩ ⟨true, some []⟩ { maxResults := none }).events).take 1 :=
  ⟨(getEventsCombined_sorted_limited ⟨true, some [demoMeetingB, demoMeetingA]⟩
      ⟨false, none⟩ ⟨true, some []⟩ ⟨true, some []⟩ {} 1 (by decide)).1,
   (getEventsCombined_sorted_limited ⟨true, some [demoMeetingB, demoMeetingA]⟩
      ⟨false, none⟩ ⟨true, some []⟩ ⟨true, some []⟩ {} 1 (by decide)).2.2.1⟩

/-! ## Trace lemmas for the orchestrator -/

theorem eventDetailsStep_not_mutation (env : Env) (name : String) (params : Params) :
    ∀ c ∈ (eventDetailsStep env name params).1, c.isMutation = false := by
  intro c hc
  unfold eventDetailsStep at hc
  cases hE : params.eventId <;> rw [hE] at hc
  · simp at hc
  · by_cases hdel : name = "delete_calendar_event" ∨ name = "update_calendar_event"
    · simp [hdel] at hc
      subst hc
      rfl
    · simp [hdel] at hc

theorem taskDetailsStep_not_mutation (env : Env) (name : String) (params : Params) :
    ∀ c ∈ (taskDetailsStep env name params).1, c.isMutation = false := by
  intro c hc
  unfold taskDetailsStep at hc
  cases hT : params.taskId <;> rw [hT] at hc
  · simp at hc
  · by_cases htask : name = "delete_task" ∨ name = "update_task"
    · simp [htask] at hc
      subst hc
      rfl
    · simp [htask] at hc

theorem conflictStep_not_mutation (env : Env) (name : String) (params args : Params) :
    ∀ c ∈ (conflictStep env name params args).1, c.isMutation = false := by
  intro c hc
  unfold conflictStep at hc
  by_cases hcond : name = "create_calendar_event" ∨
      (name = "update_calendar_event" ∧ (params.startTime.isSome ∨ params.endTime.isSome))
  · rw [if_pos hcond] at hc
    cases hS : args.startTime <;> cases hEn : args.endTime <;> rw [hS, hEn] at hc <;>
      simp at hc
    subst hc
    rfl
  · rw [if_neg hcond] at hc
    simp at hc

theorem streamPreviewPhase_not_mutation (env : Env) (name : String) (params args : Params) :
    ∀ c ∈ (streamPreviewPhase env name params args).1, c.isMutation = false := by
  intro c hc
  unfold streamPreviewPhase at hc
  simp only [List.mem_append] at hc
  rcases hc with (hc | hc) | hc
  · exact eventDetailsStep_not_mutation env name params c hc
  · exact taskDetailsStep_not_mutation env name params c hc
  · exact conflictStep_not_mutation env name params args c hc

/-- A stream preview frame always requests confirmation. -/
theorem streamPreviewPhase_confirm (env : Env) (name : String) (params args : Params) :
    (streamPreviewPhase env name params args).2.needsConfirmation = true := rfl

theorem executeTool_read_calls (env : Env) (tc : ToolCall)
    (h : tc.name = "list_calendar_events" ∨ tc.name = "list_tasks") :
    ∀ c ∈ (executeTool env tc).1, c.isMutation = false := by
  intro c hc
  unfold executeTool at hc
  rcases h with h | h <;> rw [h] at hc <;> simp at hc <;> subst hc <;> rfl

/-- No service call of the `/command` tool phase is an adapter
mutation. -/
theorem commandToolPhase_no_mutation (env : Env) (history : List Msg)
    (llm : LLMResponse) :
    ∀ c ∈ (commandToolPhase env history llm).1, c.isMutation = false := by
  intro c hc
  rcases hl : llm.toolCalls with _ | ⟨tc, rest⟩
  · simp [commandToolPhase, hl] at hc
  · by_cases h1 : tc.name = "list_calendar_events"
    · simp only [commandToolPhase, hl, h1] at hc
      simp at hc
      exact executeTool_read_calls env tc (Or.inl h1) c hc
    · by_cases h2 : tc.name = "create_calendar_event"
      · by_cases hm : attendeesMissing tc.arguments = true
        · simp [commandToolPhase, hl, h1, h2, hm] at hc
        · by_cases hi : hasInvalidEmail tc.arguments = true
          · simp [commandToolPhase, hl, h1, h2, hm, hi] at hc
          · simp [commandToolPhase, hl, h1, h2, hm, hi] at hc
            exact eventDetailsStep_not_mutation env _ tc.arguments c hc
      · simp [commandToolPhase, hl, h1, h2] at hc
        exact eventDetailsStep_not_mutation env _ tc.arguments c hc

/-- No service call of the `/stream` list branch is an adapter
mutation. -/
theorem streamListBranch_no_mutation (env : Env) (history : List Msg)
    (llm : LLMResponse) (tc : ToolCall)
    (h : tc.name = "list_calendar_events" ∨ tc.name = "list_tasks") :
    ∀ c ∈ (streamListBranch env history llm tc).1, c.isMutation = false := by
  intro c hc
  unfold streamListBranch at hc
  dsimp only at hc
  rcases hnt : (env.llm2 (history ++
      [assistantToolMsg llm.toolCalls, toolResultMsg tc.id (executeTool env tc).2])).toolCalls
    with _ | ⟨nextTc, nrest⟩
  · rw [hnt] at hc
    simp at hc
    exact executeTool_read_calls env tc h c hc
  · rw [hnt] at hc
    by_cases hm : isMutatingName nextTc.name = true
    · simp [hm] at hc
      rcases hc with hc | hc
      · exact executeTool_read_calls env tc h c hc
      · exact streamPreviewPhase_not_mutation env nextTc.name nextTc.arguments
          nextTc.arguments c hc
    · simp [hm] at hc
      exact executeTool_read_calls env tc h c hc

/-- No service call of the `/stream` tool phase is an adapter
mutation. -/
theorem streamToolPhase_no_mutation (env : Env) (history : List Msg)
    (llm : LLMResponse) :
    ∀ c ∈ (streamToolPhase env history llm).1, c.isMutation = false := by
  intro c hc
  rcases hl : llm.toolCalls with _ | ⟨tc, rest⟩
  · simp [streamToolPhase, hl] at hc
  · by_cases h1 : tc.name = "list_calendar_events" ∨ tc.name = "list_tasks"
    · simp only [streamToolPhase, hl] at hc
      rw [if_pos h1] at hc
      exact streamListBranch_no_mutation env history llm tc h1 c hc
    · by_cases h2 : tc.name = "create_calendar_event"
      · by_cases hm : attendeesMissing tc.arguments = true
        · simp [streamToolPhase, hl, h1, h2, hm] at hc
        · by_cases hi : hasInvalidEmail tc.arguments = true
          · simp [streamToolPhase, hl, h1, h2, hm, hi] at hc
          · simp [streamToolPhase, hl, h1, h2, hm, hi] at hc
            exact streamPreviewPhase_not_mutation env _ tc.arguments _ c hc
      · simp [streamToolPhase, hl, h1, h2] at hc
        exact streamPreviewPhase_not_mutation env _ tc.arguments _ c hc

/-- A mutating tool name is not one of the two read-only list names. -/
theorem isMutatingName_not_list (n : String) (h : isMutatingName n = true) :
    ¬(n = "list_calendar_events") ∧ ¬(n = "list_tasks") := by
  constructor <;> intro he <;> subst he <;> simp [isMutatingName] at h

/-! ## C1 — confirmation is never bypassed -/

/-- C1 counterexample: a mutating `create_calendar_event` tool call with
no attendees makes `/command` answer with `needsClarification` — not
with `needsConfirmation: true` as the claim states for every mutating
tool call. -/
theorem confirmation_counterexample :
    isMutatingName "create_calendar_event" = true
  ∧ (commandToolPhase {} []
      { toolCalls := [{ id := "1", name := "create_calendar_event" }] }).2.needsConfirmation
      = false
  ∧ (commandToolPhase {} []
      { toolCalls := [{ id := "1", name := "create_calendar_event" }] }).2.needsClarification
      = true := by
  refine ⟨by decide, by decide, by decide⟩

/-- C1 (amended): neither `/command` nor `/stream` ever performs an
adapter mutation — mutations dispatch only from `/execute` (shown on a
confirmed create action) — and a mutating first tool call yields a
response with `needsConfirmation: true` in every case except a
`create_calendar_event` with missing/empty attendees or an invalid
attendee email, which yields `needsClarification: true` (and no
confirmation) instead. -/
theorem mutating_calls_need_confirmation (env : Env) (history : List Msg)
    (llm : LLMResponse) :
    (∀ c ∈ (commandToolPhase env history llm).1, c.isMutation = false)
  ∧ (∀ c ∈ (streamToolPhase env history llm).1, c.isMutation = false)
  ∧ (∀ tc rest, llm.toolCalls = tc :: rest → isMutatingName tc.name = true →
      ((tc.name = "create_calendar_event" ∧
          (attendeesMissing tc.arguments = true ∨ hasInvalidEmail tc.arguments = true)) →
        (commandToolPhase env history llm).2.needsClarification = true
      ∧ (commandToolPhase env history llm).2.needsConfirmation = false
      ∧ (streamToolPhase env history llm).2.needsClarification = true
      ∧ (streamToolPhase env history llm).2.needsConfirmation = false)
    ∧ (¬(tc.name = "create_calendar_event" ∧
          (attendeesMissing tc.arguments = true ∨ hasInvalidEmail tc.arguments = true)) →
        (commandToolPhase env history llm).2.needsConfirmation = true
      ∧ (streamToolPhase env history llm).2.needsConfirmation = true))
  ∧ ((executeHandler env (some demoCreateAction) true).1.length = 1
      ∧ (executeHandler env (some demoCreateAction) true).1.all SvcCall.isMutation = true) := by
  refine ⟨commandToolPhase_no_mutation env history llm,
    streamToolPhase_no_mutation env history llm, ?_, ?_⟩
  · intro tc rest hl hmut
    obtain ⟨hn1, hn2⟩ := isMutatingName_not_list tc.name hmut
    by_cases h2 : tc.name = "create_calendar_event"
    · by_cases hm : attendeesMissing tc.arguments = true
      · constructor
        · intro _
          refine ⟨?_, ?_, ?_, ?_⟩
          · simp [commandToolPhase, hl, hn1, h2, hm]
          · simp [commandToolPhase, hl, hn1, h2, hm]
          · simp [streamToolPhase, hl, hn1, hn2, h2, hm]
          · simp [streamToolPhase, hl, hn1, hn2, h2, hm]
        · intro hneg
          exact absurd ⟨h2, Or.inl hm⟩ hneg
      · by_cases hi : hasInvalidEmail tc.arguments = true
        · constructor
          · intro _
            refine ⟨?_, ?_, ?_, ?_⟩
            · simp [commandToolPhase, hl, hn1, h2, hm, hi]
            · simp [commandToolPhase, hl, hn1, h2, hm, hi]
            · simp [streamToolPhase, hl, hn1, hn2, h2, hm, hi]
            · simp [streamToolPhase, hl, hn1, hn2, h2, hm, hi]
          · intro hneg
            exact absurd ⟨h2, Or.inr hi⟩ hneg
        · constructor
          · intro hexc
            rcases hexc with ⟨_, hm' | hi'⟩
            · exact absurd hm' hm
            · exact absurd hi' hi
          · intro _
            constructor
            · simp [commandToolPhase, hl, hn1, h2, hm, hi]
            · simp [streamToolPhase, hl, hn1, hn2, h2, hm, hi,
                streamPreviewPhase_confirm]
    · constructor
      · intro hexc
        exact absurd hexc.1 h2
      · intro _
        constructor
        · simp [commandToolPhase, hl, hn1, h2]
        · simp [streamToolPhase, hl, hn1, hn2, h2, streamPreviewPhase_confirm]
  · exact ⟨rfl, rfl⟩

/-- Witness for C1 at concrete mutating tool calls: a
`delete_calendar_event` gets `needsConfirmation: true` on both paths,
while a `create_calendar_event` with no attendees gets
`needsClarification: true` and no confirmation on both paths. -/
theorem mutating_calls_need_confirmation_witness :
    ((commandToolPhase {} []
        { toolCalls := [{ id := "1", name := "delete_calendar_event" }] }).2.needsConfirmation
        = true
  ∧ (streamToolPhase {} []
        { toolCalls := [{ id := "1", name := "delete_calendar_event" }] }).2.needsConfirmation
        = true)
  ∧ ((commandToolPhase {} []
        { toolCalls := [{ id := "2", name := "create_calendar_event" }] }).2.needsClarification
        = true
  ∧ (commandToolPhase {} []
        { toolCalls := [{ id := "2", name := "create_calendar_event" }] }).2.needsConfirmation
        = false
  ∧ (streamToolPhase {} []
        { toolCalls := [{ id := "2", name := "create_calendar_event" }] }).2.needsClarification
        = true
  ∧ (streamToolPhase {} []
        { toolCalls := [{ id := "2", name := "create_calendar_event" }] }).2.needsConfirmation
        = false) :=
  ⟨((mutating_calls_need_confirmation {} []
        { toolCalls := [{ id := "1", name := "delete_calendar_event" }] }).2.2.1
      { id := "1", name := "delete_calendar_event" } [] rfl (by decide)).2 (by decide),
   ((mutating_calls_need_confirmation {} []
        { toolCalls := [{ id := "2", name := "create_calendar_event" }] }).2.2.1
      { id := "2", name := "create_calendar_event" } [] rfl (by decide)).1
     ⟨rfl, Or.inl (by decide)⟩⟩

/-! ## C2 — only the first tool call is acted on -/

/-- C2 counterexample: two resolver responses with the same first tool
call but different tails produce different `/command` responses — the
full tool-call list is echoed into the returned conversation history, so
the tail is not without effect on the response. -/
theorem first_tool_only_counterexample :
    ({ toolCalls := [{ id := "1", name := "delete_calendar_event" },
        { id := "2", name := "delete_task" }] } : LLMResponse).toolCalls.head? =
      ({ toolCalls := [{ id := "1", name := "delete_calendar_event" }] } :
        LLMResponse).toolCalls.head?
  ∧ (commandToolPhase {} []
      { toolCalls := [{ id := "1", name := "delete_calendar_event" },
          { id := "2", name := "delete_task" }] }).2 ≠
    (commandToolPhase {} []
      { toolCalls := [{ id := "1", name := "delete_calendar_event" }] }).2 := by
  refine ⟨rfl, by decide⟩

/-- C2 (amended): the orchestrator dispatches and previews only
`toolCalls[0]`: the `/command` trace, action preview, executed result
and response flags depend only on the first tool call, and for a
non-list first tool the whole `/stream` outcome is independent of the
tail; the tail is merely echoed into the conversation history (hence it
can still influence the `/command` response payload and the follow-up
resolver call). -/
theorem first_tool_only (env : Env) (history : List Msg) (m : Option String)
    (tc : ToolCall) (rest : List ToolCall) :
    ((commandToolPhase env history { message := m, toolCalls := tc :: rest }).1,
     (commandToolPhase env history { message := m, toolCalls := tc :: rest }).2.action,
     (commandToolPhase env history { message := m, toolCalls := tc :: rest }).2.result,
     (commandToolPhase env history { message := m, toolCalls := tc :: rest }).2.needsConfirmation,
     (commandToolPhase env history { message := m, toolCalls := tc :: rest }).2.executed)
    = ((commandToolPhase env history { message := m, toolCalls := [tc] }).1,
       (commandToolPhase env history { message := m, toolCalls := [tc] }).2.action,
       (commandToolPhase env history { message := m, toolCalls := [tc] }).2.result,
       (commandToolPhase env history { message := m, toolCalls := [tc] }).2.needsConfirmation,
       (commandToolPhase env history { message := m, toolCalls := [tc] }).2.executed)
  ∧ (¬tc.name = "list_calendar_events" → ¬tc.name = "list_tasks" →
      streamToolPhase env history { message := m, toolCalls := tc :: rest } =
        streamToolPhase env history { message := m, toolCalls := [tc] }) := by
  constructor
  · by_cases h1 : tc.name = "list_calendar_events"
    · simp [commandToolPhase, h1]
    · by_cases h2 : tc.name = "create_calendar_event"
      · by_cases hm : attendeesMissing tc.arguments = true
        · simp [commandToolPhase, h1, h2, hm]
        · by_cases hi : hasInvalidEmail tc.arguments = true
          · simp [commandToolPhase, h1, h2, hm, hi]
          · simp [commandToolPhase, h1, h2, hm, hi]
      · simp [commandToolPhase, h1, h2]
  · intro hn1 hn2
    by_cases h2 : tc.name = "create_calendar_event"
    · by_cases hm : attendeesMissing tc.arguments = true
      · simp [streamToolPhase, hn1, hn2, h2, hm]
      · by_cases hi : hasInvalidEmail tc.arguments = true
        · simp [streamToolPhase, hn1, hn2, h2, hm, hi]
        · simp [streamToolPhase, hn1, hn2, h2, hm, hi]
    · simp [streamToolPhase, hn1, hn2, h2]

/-- Witness for C2: a mutating first tool call makes the `/stream`
outcome identical whether or not a second tool call is present. -/
theorem first_tool_only_witness :
    streamToolPhase {} []
      { toolCalls := [{ id := "1", name := "delete_calendar_event" },
          { id := "2", name := "delete_task" }] } =
    streamToolPhase {} []
      { toolCalls := [{ id := "1", name := "delete_calendar_event" }] } :=
  (first_tool_only {} [] none { id := "1", name := "delete_calendar_event" }
      [{ id := "2", name := "delete_task" }]).2 (by decide) (by decide)

/-! ## C9 — execute-side re-validation -/

/-- C9 counterexample: the preview step rejects a create with zero
attendees, but a confirmed execute of the same action dispatches the
mutation — the attendee-presence check is not re-applied at execute
time, so the validation is not symmetric. -/
theorem execute_revalidation_counterexample :
    (executeHandler {} (some emptyAttendeesCreate) true).1.length = 1
  ∧ (executeHandler {} (some emptyAttendeesCreate) true).1.all SvcCall.isMutation = true
  ∧ (commandToolPhase {} []
      { toolCalls := [{ id := "1", name := "create_calendar_event",
                        arguments := { attendees := some [] } }] }).2.needsClarification
      = true :=
  ⟨rfl, rfl, by decide⟩

/-- C9 (amended): on a confirmed execute, the syntactic email check is
re-applied to whatever attendee list is present (a failure yields a 400
validation response and no dispatch), but the attendee-presence check is
not: an empty attendee list passes validation and dispatches the
mutation, and an absent attendees field raises a `TypeError` that the
catch-all converts into a generic 500 — not a structured validation
response.  Update actions likewise re-validate provided attendee
emails. -/
theorem execute_revalidation (env : Env) (a : ActionIn) (l : List Attendee) :
    (a.type = "create_calendar_event" → a.attendees = some l →
      ¬(l.filter invalidEmail = []) →
      executeHandler env (some a) true =
        ([], .status400 "Please provide valid email addresses for all attendees"))
  ∧ (a.type = "create_calendar_event" → a.attendees = none →
      (executeHandler env (some a) true).1 = [] ∧
      ∃ msg, (executeHandler env (some a) true).2 = .status500Caught msg)
  ∧ (a.type = "create_calendar_event" → a.attendees = some l →
      l.filter invalidEmail = [] →
      (executeHandler env (some a) true).1.length = 1 ∧
      (executeHandler env (some a) true).1.all SvcCall.isMutation = true)
  ∧ (a.type = "update_calendar_event" → a.attendees = some l → ¬(l = []) →
      ¬(l.filter invalidEmail = []) →
      executeHandler env (some a) true =
        ([], .status400 "Please provide valid email addresses for all attendees")) := by
  refine ⟨?_, ?_, ?_, ?_⟩
  · intro ht hatt hbad
    simp [executeHandler, ht, hatt, List.isEmpty_iff, hbad]
  · intro ht hatt
    constructor
    · simp [executeHandler, ht, hatt]
    · exact ⟨"TypeError: action.attendees is undefined", by simp [executeHandler, ht, hatt]⟩
  · intro ht hatt hgood
    constructor
    · simp [executeHandler, ht, hatt, List.isEmpty_iff, hgood]
    · simp [executeHandler, ht, hatt, List.isEmpty_iff, hgood, SvcCall.isMutation]
  · intro ht hatt hne hbad
    simp [executeHandler, ht, hatt, List.isEmpty_iff, hne, hbad]

/-- Witness for C9 at concrete actions: an invalid email is rejected at
execute time; absent attendees crash into the generic 500; an empty
attendee list dispatches a mutation; an update with a bad attendee email
is rejected. -/
theorem execute_revalidation_witness :
    executeHandler {} (some badEmailCreate) true =
      ([], .status400 "Please provide valid email addresses for all attendees")
  ∧ ((executeHandler {} (some noAttendeesCreate) true).1 = [] ∧
      ∃ msg, (executeHandler {} (some noAttendeesCreate) true).2 =
        ExecResponse.status500Caught msg)
  ∧ ((executeHandler {} (some emptyAttendeesCreate) true).1.length = 1 ∧
      (executeHandler {} (some emptyAttendeesCreate) true).1.all SvcCall.isMutation = true)
  ∧ executeHandler {} (some badEmailUpdate) true =
      ([], .status400 "Please provide valid email addresses for all attendees") :=
  ⟨(execute_revalidation {} badEmailCreate [{ email := some "x" }]).1
      rfl rfl (by decide),
   (execute_revalidation {} noAttendeesCreate []).2.1 rfl rfl,
   (execute_revalidation {} emptyAttendeesCreate []).2.2.1 rfl rfl (by decide),
   (execute_revalidation {} badEmailUpdate [{ email := some "x" }]).2.2.2
      rfl rfl (by decide) (by decide)⟩

end Calendai
